import Mathlib

/-!
Verification of the hierarchical permission-resolution engine.

This file gives a shallow embedding of the permission data model, the
`PermissionResolver` (server/services/permissions/PermissionResolver.ts),
the effective-permission calculator (`getDocumentPermission` /
`isElevatedPermission`), the policy matching helpers
(`includesPermission` / `matchesSubject` in server/policies/collection.ts
and server/policies/document.ts), and the grant-mutating route handlers
(`documents.add_user` / `documents.add_group` in
server/routes/api/documents/documents.ts), together with theorems about
their behaviour.

Database tables are embedded as lists of rows; the SQL `findAll` with its
`ORDER BY` clause is embedded as a filter followed by a stable sort; the
recursive ancestry CTE is embedded as its iterative working-table
semantics with an explicit step budget (`none` marks an iteration that
has not reached the empty working table within the budget, i.e. a query
that does not terminate within any given bound).
-/

namespace Outline

/-- Enum `PermissionSubjectType` from @server/models/Permission
(values "user" | "group" | "role"). -/
inductive PermissionSubjectType
  | user
  | group
  | role
  deriving DecidableEq, Repr, Fintype

/-- Enum `PermissionResourceType` from @server/models/Permission
(values "workspace" | "collection" | "document"). -/
inductive PermissionResourceType
  | workspace
  | collection
  | document
  deriving DecidableEq, Repr, Fintype

/-- Enum `PermissionLevel` from @server/models/Permission
(values "read" | "edit" | "manage"). -/
inductive PermissionLevel
  | read
  | edit
  | manage
  deriving DecidableEq, Repr, Fintype

/-- Enum `PermissionInheritMode` from @server/models/Permission
(values "self" | "children"). -/
inductive PermissionInheritMode
  | self
  | children
  deriving DecidableEq, Repr, Fintype

/-- Enum `DocumentPermission` from @shared/types. -/
inductive DocumentPermission
  | read
  | edit
  | manage
  deriving DecidableEq, Repr, Fintype

/-- Enum `CollectionPermission` from @shared/types. -/
inductive CollectionPermission
  | read
  | edit
  | manage
  deriving DecidableEq, Repr, Fintype

/-- The `DocumentPermissionPriority` table (higher value takes precedence). -/
def DocumentPermissionPriority : DocumentPermission → Nat
  | .manage => 2
  | .edit => 1
  | .read => 0

/-- The `CollectionPermissionPriority` table (higher value takes precedence). -/
def CollectionPermissionPriority : CollectionPermission → Nat
  | .manage => 2
  | .edit => 1
  | .read => 0

/-- A row of the `permissions` table: the persisted Grant entity
(model `Permission`, a paranoid/soft-deletable model). `createdAt` and
`deletedAt` are timestamps modelled as naturals. -/
structure Permission where
  id : String
  teamId : String
  subjectType : PermissionSubjectType
  subjectId : Option String
  subjectRole : Option String
  resourceType : PermissionResourceType
  resourceId : Option String
  permission : PermissionLevel
  inheritMode : PermissionInheritMode
  grantedById : String
  createdAt : Nat
  deletedAt : Option Nat
  deriving DecidableEq, Repr

/-- The provenance tag of a resolved grant. -/
inductive GrantSource
  | direct
  | inherited
  deriving DecidableEq, Repr

/-- The `ResolvedPermission` record returned by `PermissionResolver`. -/
structure ResolvedPermission where
  id : String
  teamId : String
  subjectType : PermissionSubjectType
  subjectId : Option String
  subjectRole : Option String
  resourceType : PermissionResourceType
  resourceId : Option String
  permission : PermissionLevel
  inheritMode : PermissionInheritMode
  grantedById : String
  source : GrantSource
  deriving DecidableEq, Repr

/-- Position of a `PermissionResourceType` value in the ascending order of
its stored string values ("collection" < "document" < "workspace"), as used
by the SQL ORDER BY of `DEFAULT_ORDER`. -/
def resourceTypeOrd : PermissionResourceType → Nat
  | .collection => 0
  | .document => 1
  | .workspace => 2

/-- Position of a `PermissionSubjectType` value in the ascending order of
its stored string values ("group" < "role" < "user"). -/
def subjectTypeOrd : PermissionSubjectType → Nat
  | .group => 0
  | .role => 1
  | .user => 2

/-- The `DEFAULT_ORDER` comparison of PermissionResolver.ts:
resourceType ASC, then subjectType ASC, then createdAt ASC. -/
def DefaultOrderLe (p q : Permission) : Prop :=
  resourceTypeOrd p.resourceType < resourceTypeOrd q.resourceType ∨
    (resourceTypeOrd p.resourceType = resourceTypeOrd q.resourceType ∧
      (subjectTypeOrd p.subjectType < subjectTypeOrd q.subjectType ∨
        (subjectTypeOrd p.subjectType = subjectTypeOrd q.subjectType ∧
          p.createdAt ≤ q.createdAt)))

instance : DecidableRel DefaultOrderLe := fun p q => by
  unfold DefaultOrderLe
  infer_instance

/-- Embedding of `Permission.findAll({ where, order: DEFAULT_ORDER })`:
the rows of the table satisfying the where-clause, in a stable sort by
`DEFAULT_ORDER`. -/
def permissionFindAll (db : List Permission) (w : Permission → Bool) : List Permission :=
  List.insertionSort DefaultOrderLe (db.filter w)

theorem mem_permissionFindAll {db : List Permission} {w : Permission → Bool} {p : Permission} :
    p ∈ permissionFindAll db w ↔ p ∈ db ∧ w p = true := by
  unfold permissionFindAll
  rw [List.mem_insertionSort, List.mem_filter]

/-- Embedding of the where-clause of `resolveForCollection`: same team,
not soft-deleted, and either resource is exactly this collection, or a
workspace-wide grant with `inheritMode = Children`. -/
def collectionWhere (teamId collectionId : String) (p : Permission) : Bool :=
  decide (p.teamId = teamId ∧ p.deletedAt = none ∧
    ((p.resourceType = .collection ∧ p.resourceId = some collectionId) ∨
      (p.resourceType = .workspace ∧ p.resourceId = none ∧
        p.inheritMode = .children)))

/-- The mapping from a `Permission` row to a `ResolvedPermission` performed
by `resolveForCollection`, tagging the source. -/
def toResolvedForCollection (collectionId : String) (p : Permission) : ResolvedPermission :=
  { id := p.id
    teamId := p.teamId
    subjectType := p.subjectType
    subjectId := p.subjectId
    subjectRole := p.subjectRole
    resourceType := p.resourceType
    resourceId := p.resourceId
    permission := p.permission
    inheritMode := p.inheritMode
    grantedById := p.grantedById
    source :=
      if p.resourceType = .collection ∧ p.resourceId = some collectionId then
        .direct
      else
        .inherited }

/-- Embedding of `PermissionResolver.resolveForCollection`. -/
def resolveForCollection (db : List Permission) (teamId collectionId : String) :
    List ResolvedPermission :=
  (permissionFindAll db (collectionWhere teamId collectionId)).map
    (toResolvedForCollection collectionId)

/-- A sample direct collection grant used to witness the resolver theorems. -/
def sampleCollGrant : Permission :=
  { id := "g1"
    teamId := "t1"
    subjectType := .user
    subjectId := some "u1"
    subjectRole := none
    resourceType := .collection
    resourceId := some "c1"
    permission := .edit
    inheritMode := .children
    grantedById := "u0"
    createdAt := 1
    deletedAt := none }

/-- C5: `resolveForCollection` returns exactly the union of the active
workspace-wide Children grants (tagged inherited) and the active grants
whose resource is exactly the given collection, any inherit mode (tagged
direct); soft-deleted grants never appear, and no ranking or winner
selection is performed (the membership characterization captures the full
explain-set). -/
theorem resolveForCollection_spec (db : List Permission) (teamId collectionId : String) :
    (∀ r : ResolvedPermission,
      r ∈ resolveForCollection db teamId collectionId ↔
        ∃ p ∈ db, p.teamId = teamId ∧ p.deletedAt = none ∧
          ((p.resourceType = .workspace ∧ p.resourceId = none ∧
              p.inheritMode = .children) ∨
            (p.resourceType = .collection ∧ p.resourceId = some collectionId)) ∧
          r = toResolvedForCollection collectionId p)
    ∧ (∀ r ∈ resolveForCollection db teamId collectionId,
        r.source = .direct ↔
          (r.resourceType = .collection ∧ r.resourceId = some collectionId)) := by
  constructor
  · intro r
    unfold resolveForCollection
    rw [List.mem_map]
    constructor
    · rintro ⟨p, hp, rfl⟩
      rw [mem_permissionFindAll] at hp
      obtain ⟨hmem, hw⟩ := hp
      unfold collectionWhere at hw
      rw [decide_eq_true_iff] at hw
      refine ⟨p, hmem, hw.1, hw.2.1, ?_, rfl⟩
      rcases hw.2.2 with h | h
      · exact Or.inr h
      · exact Or.inl h
    · rintro ⟨p, hmem, h1, h2, h3, rfl⟩
      refine ⟨p, ?_, rfl⟩
      rw [mem_permissionFindAll]
      refine ⟨hmem, ?_⟩
      unfold collectionWhere
      rw [decide_eq_true_iff]
      refine ⟨h1, h2, ?_⟩
      rcases h3 with h | h
      · exact Or.inr h
      · exact Or.inl h
  · intro r hr
    unfold resolveForCollection at hr
    rw [List.mem_map] at hr
    obtain ⟨p, _, rfl⟩ := hr
    unfold toResolvedForCollection
    by_cases h : p.resourceType = .collection ∧ p.resourceId = some collectionId
    · simp [h]
    · simp only [h, if_false]
      simp [h]

theorem resolveForCollection_spec_witness :
    toResolvedForCollection "c1" sampleCollGrant ∈
        resolveForCollection [sampleCollGrant] "t1" "c1" ∧
      ((toResolvedForCollection "c1" sampleCollGrant).source = .direct ↔
        ((toResolvedForCollection "c1" sampleCollGrant).resourceType = .collection ∧
          (toResolvedForCollection "c1" sampleCollGrant).resourceId = some "c1")) :=
  ⟨by decide,
    (resolveForCollection_spec [sampleCollGrant] "t1" "c1").2
      (toResolvedForCollection "c1" sampleCollGrant) (by decide)⟩

/-! ## Document ancestry: the recursive CTE of `findAncestorDocumentIds`

The source computes the ancestor chain with a PostgreSQL `WITH RECURSIVE`
query over `documents(id, parentDocumentId)` using `UNION ALL`: the
working table starts with the row of the given document, and each
iteration joins the working table's `parentDocumentId` against `documents.id`,
until an iteration produces no rows.  We embed that iterative semantics
directly; `cteAncestry` returns `none` when the working table has not
become empty within the given number of iterations (so
`∀ fuel, _ = none` states that the query never terminates). -/

/-- A row of the `documents` table, restricted to the columns the embedded
code reads (`id`, `parentDocumentId`, and `collectionId` for the
effective-permission calculator). -/
structure DocumentRow where
  id : String
  parentDocumentId : Option String
  collectionId : Option String
  deriving DecidableEq, Repr

/-- One iteration of the recursive CTE: join the working table's
`parentDocumentId` against `documents.id` (`UNION ALL`, no dedup, no
visited set). -/
def cteExpand (docs : List DocumentRow) (frontier : List DocumentRow) : List DocumentRow :=
  frontier.flatMap fun r =>
    match r.parentDocumentId with
    | none => []
    | some p => docs.filter fun d => decide (d.id = p)

/-- Run the recursive CTE for at most `fuel` iterations, accumulating all
rows produced; `none` when the working table is still non-empty after
`fuel` iterations. -/
def cteAncestry (docs : List DocumentRow) :
    Nat → List DocumentRow → List DocumentRow → Option (List DocumentRow)
  | 0, frontier, acc => if frontier.isEmpty then some acc else none
  | fuel + 1, frontier, acc =>
    if frontier.isEmpty then some acc
    else cteAncestry docs fuel (cteExpand docs frontier) (acc ++ cteExpand docs frontier)

/-- Embedding of `PermissionResolver.findAncestorDocumentIds`: the ids
selected by the recursive ancestry CTE (the chain includes the document
itself as its first row). -/
def findAncestorDocumentIds (docs : List DocumentRow) (documentId : String) (fuel : Nat) :
    Option (List String) :=
  let base := docs.filter fun d => decide (d.id = documentId)
  (cteAncestry docs fuel base base).map (List.map (·.id))

/-- Document "docA", whose parent pointer forms a two-cycle with "docB". -/
def cycleDocA : DocumentRow :=
  { id := "docA", parentDocumentId := some "docB", collectionId := none }

/-- Document "docB", whose parent pointer forms a two-cycle with "docA". -/
def cycleDocB : DocumentRow :=
  { id := "docB", parentDocumentId := some "docA", collectionId := none }

/-- A documents table containing a parent-pointer cycle docA → docB → docA. -/
def cycleDocs : List DocumentRow := [cycleDocA, cycleDocB]

theorem cteAncestry_cycle_none :
    ∀ (fuel : Nat) (acc : List DocumentRow),
      cteAncestry cycleDocs fuel [cycleDocA] acc = none ∧
        cteAncestry cycleDocs fuel [cycleDocB] acc = none := by
  intro fuel
  induction fuel with
  | zero =>
    intro acc
    exact ⟨rfl, rfl⟩
  | succ n ih =>
    intro acc
    have hA : cteExpand cycleDocs [cycleDocA] = [cycleDocB] := rfl
    have hB : cteExpand cycleDocs [cycleDocB] = [cycleDocA] := rfl
    constructor
    · show cteAncestry cycleDocs (n + 1) [cycleDocA] acc = none
      unfold cteAncestry
      simp only [List.isEmpty_cons, Bool.false_eq_true, if_false, hA]
      exact (ih _).2
    · show cteAncestry cycleDocs (n + 1) [cycleDocB] acc = none
      unfold cteAncestry
      simp only [List.isEmpty_cons, Bool.false_eq_true, if_false, hB]
      exact (ih _).1

/-- Embedding of the where-clause disjunction built by `resolveForDocument`:
workspace-wide Children grants, grants on exactly this document, Children
grants on the document's collection when one was supplied, and Children
grants on a strict-ancestor document when the ancestor list is non-empty
(the last two disjuncts are pushed conditionally in the source). -/
def documentWhere (teamId documentId : String) (collectionId : Option String)
    (inheritedAncestorIds : List String) (p : Permission) : Bool :=
  decide (p.teamId = teamId ∧ p.deletedAt = none) &&
    (decide (p.resourceType = .workspace ∧ p.resourceId = none ∧
        p.inheritMode = .children) ||
      decide (p.resourceType = .document ∧ p.resourceId = some documentId) ||
      (match collectionId with
        | some c =>
          decide (p.resourceType = .collection ∧ p.resourceId = some c ∧
            p.inheritMode = .children)
        | none => false) ||
      (if inheritedAncestorIds.isEmpty then false
        else
          decide (p.resourceType = .document ∧ p.inheritMode = .children ∧
            ∃ a ∈ inheritedAncestorIds, p.resourceId = some a)))

/-- The mapping from a `Permission` row to a `ResolvedPermission` performed
by `resolveForDocument`, tagging the source. -/
def toResolvedForDocument (documentId : String) (p : Permission) : ResolvedPermission :=
  { id := p.id
    teamId := p.teamId
    subjectType := p.subjectType
    subjectId := p.subjectId
    subjectRole := p.subjectRole
    resourceType := p.resourceType
    resourceId := p.resourceId
    permission := p.permission
    inheritMode := p.inheritMode
    grantedById := p.grantedById
    source :=
      if p.resourceType = .document ∧ p.resourceId = some documentId then
        .direct
      else
        .inherited }

/-- Embedding of `PermissionResolver.resolveForDocument`: compute the
ancestor chain, drop the document's own id to obtain the strict ancestors,
then run the single `findAll` over the where-clause disjunction.  The
result is `none` when the ancestry query does not terminate within `fuel`
iterations. -/
def resolveForDocument (db : List Permission) (docs : List DocumentRow)
    (teamId documentId : String) (collectionId : Option String) (fuel : Nat) :
    Option (List ResolvedPermission) :=
  (findAncestorDocumentIds docs documentId fuel).map fun ancestorIds =>
    let inheritedAncestorIds := ancestorIds.filter fun a => decide (a ≠ documentId)
    (permissionFindAll db
        (documentWhere teamId documentId collectionId inheritedAncestorIds)).map
      (toResolvedForDocument documentId)

/-- C1: the claim asserts that the ancestor-chain computation of
`resolveForDocument` is guarded against revisiting a document id and so
terminates on a cyclic parent chain.  The source's recursive CTE uses
`UNION ALL` with no visited set and no depth cap: on the two-document
cycle docA ⇄ docB the working table alternates between the two rows and
never empties, so the ancestry query (and hence `resolveForDocument`)
does not terminate within any iteration bound. -/
theorem resolveForDocument_cycle_unbounded :
    (∀ fuel : Nat, findAncestorDocumentIds cycleDocs "docA" fuel = none) ∧
      ∀ (fuel : Nat) (db : List Permission) (teamId : String)
        (collectionId : Option String),
        resolveForDocument db cycleDocs teamId "docA" collectionId fuel = none := by
  have h : ∀ fuel : Nat, findAncestorDocumentIds cycleDocs "docA" fuel = none := by
    intro fuel
    show (cteAncestry cycleDocs fuel [cycleDocA] [cycleDocA]).map (List.map (·.id)) = none
    rw [(cteAncestry_cycle_none fuel _).1]
    rfl
  refine ⟨h, fun fuel db teamId collectionId => ?_⟩
  unfold resolveForDocument
  rw [h fuel]
  rfl

theorem documentWhere_eq_true_iff (teamId documentId : String)
    (collectionId : Option String) (anc : List String) (p : Permission) :
    documentWhere teamId documentId collectionId anc p = true ↔
      (p.teamId = teamId ∧ p.deletedAt = none ∧
        ((p.resourceType = .workspace ∧ p.resourceId = none ∧
            p.inheritMode = .children) ∨
          (∃ c, collectionId = some c ∧ p.resourceType = .collection ∧
            p.resourceId = some c ∧ p.inheritMode = .children) ∨
          (p.resourceType = .document ∧ p.resourceId = some documentId) ∨
          (p.resourceType = .document ∧ p.inheritMode = .children ∧
            ∃ a ∈ anc, p.resourceId = some a))) := by
  unfold documentWhere
  cases collectionId <;> cases anc <;>
    · simp only [Bool.and_eq_true, Bool.or_eq_true, decide_eq_true_eq,
        List.isEmpty_nil, List.isEmpty_cons, if_true, Bool.false_eq_true,
        if_false, List.not_mem_nil, false_and, exists_false, and_false,
        or_false, Option.some.injEq, exists_eq_left']
      try tauto

/-- C6: when the ancestry query terminates, `resolveForDocument` returns
exactly the union of (a) active workspace-wide Children grants,
(b) active Children grants on the supplied collection, (c) active grants
on exactly this document (any inherit mode, tagged direct — everything
else is tagged inherited), and (d) active Children grants on a strict
ancestor document; each grant appears at most once (ids stay unique) and
soft-deleted grants are excluded. -/
theorem resolveForDocument_spec (db : List Permission) (docs : List DocumentRow)
    (teamId documentId : String) (collectionId : Option String) (fuel : Nat)
    (ancestorIds : List String) (res : List ResolvedPermission)
    (hanc : findAncestorDocumentIds docs documentId fuel = some ancestorIds)
    (hres : resolveForDocument db docs teamId documentId collectionId fuel = some res) :
    (∀ r : ResolvedPermission,
      r ∈ res ↔
        ∃ p ∈ db, p.teamId = teamId ∧ p.deletedAt = none ∧
          ((p.resourceType = .workspace ∧ p.resourceId = none ∧
              p.inheritMode = .children) ∨
            (∃ c, collectionId = some c ∧ p.resourceType = .collection ∧
              p.resourceId = some c ∧ p.inheritMode = .children) ∨
            (p.resourceType = .document ∧ p.resourceId = some documentId) ∨
            (p.resourceType = .document ∧ p.inheritMode = .children ∧
              ∃ a, a ∈ ancestorIds ∧ a ≠ documentId ∧ p.resourceId = some a)) ∧
          r = toResolvedForDocument documentId p)
    ∧ (∀ r ∈ res, r.source = .direct ↔
        (r.resourceType = .document ∧ r.resourceId = some documentId))
    ∧ ((db.map (·.id)).Nodup → (res.map (·.id)).Nodup) := by
  unfold resolveForDocument at hres
  rw [hanc] at hres
  simp only [Option.map_some', Option.some.injEq] at hres
  subst hres
  refine ⟨?_, ?_, ?_⟩
  · intro r
    rw [List.mem_map]
    constructor
    · rintro ⟨p, hp, rfl⟩
      rw [mem_permissionFindAll] at hp
      obtain ⟨hmem, hw⟩ := hp
      rw [documentWhere_eq_true_iff] at hw
      obtain ⟨h1, h2, h3⟩ := hw
      refine ⟨p, hmem, h1, h2, ?_, rfl⟩
      rcases h3 with h | h | h | ⟨ha, hb, a, hmem', hc⟩
      · exact Or.inl h
      · exact Or.inr (Or.inl h)
      · exact Or.inr (Or.inr (Or.inl h))
      · rw [List.mem_filter, decide_eq_true_eq] at hmem'
        exact Or.inr (Or.inr (Or.inr ⟨ha, hb, a, hmem'.1, hmem'.2, hc⟩))
    · rintro ⟨p, hmem, h1, h2, h3, rfl⟩
      refine ⟨p, ?_, rfl⟩
      rw [mem_permissionFindAll]
      refine ⟨hmem, ?_⟩
      rw [documentWhere_eq_true_iff]
      refine ⟨h1, h2, ?_⟩
      rcases h3 with h | h | h | ⟨ha, hb, a, hmem', hne, hc⟩
      · exact Or.inl h
      · exact Or.inr (Or.inl h)
      · exact Or.inr (Or.inr (Or.inl h))
      · refine Or.inr (Or.inr (Or.inr ⟨ha, hb, a, ?_, hc⟩))
        rw [List.mem_filter, decide_eq_true_eq]
        exact ⟨hmem', hne⟩
  · intro r hr
    rw [List.mem_map] at hr
    obtain ⟨p, _, rfl⟩ := hr
    unfold toResolvedForDocument
    by_cases h : p.resourceType = .document ∧ p.resourceId = some documentId
    · simp [h]
    · simp only [h, if_false]
      simp [h]
  · intro hnodup
    rw [List.map_map]
    have hcongr :
        (permissionFindAll db
            (documentWhere teamId documentId collectionId
              (ancestorIds.filter fun a => decide (a ≠ documentId)))).map
          ((fun r : ResolvedPermission => r.id) ∘ toResolvedForDocument documentId) =
        (permissionFindAll db
            (documentWhere teamId documentId collectionId
              (ancestorIds.filter fun a => decide (a ≠ documentId)))).map
          (fun p : Permission => p.id) :=
      List.map_congr_left fun p _ => rfl
    rw [hcongr]
    have hperm :
        (permissionFindAll db
            (documentWhere teamId documentId collectionId
              (ancestorIds.filter fun a => decide (a ≠ documentId)))).map
            (fun p : Permission => p.id) |>.Perm
          ((db.filter
              (documentWhere teamId documentId collectionId
                (ancestorIds.filter fun a => decide (a ≠ documentId)))).map
            (fun p : Permission => p.id)) :=
      (List.perm_insertionSort _ _).map _
    rw [hperm.nodup_iff]
    exact ((List.filter_sublist db).map _).nodup hnodup

/-- A root document in collection "c1". -/
def rootDoc : DocumentRow :=
  { id := "d1", parentDocumentId := none, collectionId := some "c1" }

/-- A child document of `rootDoc`. -/
def childDoc : DocumentRow :=
  { id := "d2", parentDocumentId := some "d1", collectionId := some "c1" }

/-- A two-document tree used by concrete witnesses. -/
def sampleDocs : List DocumentRow := [rootDoc, childDoc]

/-- A workspace-wide role grant with inheritMode Children. -/
def gws : Permission :=
  { id := "gw", teamId := "t1", subjectType := .role, subjectId := none,
    subjectRole := some "editor", resourceType := .workspace, resourceId := none,
    permission := .read, inheritMode := .children, grantedById := "u0",
    createdAt := 1, deletedAt := none }

/-- A user grant on collection "c1" with inheritMode Children. -/
def gcoll : Permission :=
  { id := "gc", teamId := "t1", subjectType := .user, subjectId := some "u1",
    subjectRole := none, resourceType := .collection, resourceId := some "c1",
    permission := .edit, inheritMode := .children, grantedById := "u0",
    createdAt := 2, deletedAt := none }

/-- A user grant directly on document "d2". -/
def gdoc : Permission :=
  { id := "gd", teamId := "t1", subjectType := .user, subjectId := some "u1",
    subjectRole := none, resourceType := .document, resourceId := some "d2",
    permission := .read, inheritMode := .self, grantedById := "u0",
    createdAt := 3, deletedAt := none }

/-- A group grant on the ancestor document "d1" with inheritMode Children. -/
def ganc : Permission :=
  { id := "ga", teamId := "t1", subjectType := .group, subjectId := some "grp1",
    subjectRole := none, resourceType := .document, resourceId := some "d1",
    permission := .manage, inheritMode := .children, grantedById := "u0",
    createdAt := 4, deletedAt := none }

/-- A soft-deleted grant on document "d2"; it must never be resolved. -/
def gdel : Permission :=
  { id := "gx", teamId := "t1", subjectType := .user, subjectId := some "u1",
    subjectRole := none, resourceType := .document, resourceId := some "d2",
    permission := .manage, inheritMode := .self, grantedById := "u0",
    createdAt := 5, deletedAt := some 9 }

/-- The sample permissions table used by concrete witnesses. -/
def samplePermDb : List Permission := [gws, gcoll, gdoc, ganc, gdel]

/-- The resolved set for document "d2" over the sample data, as computed by
`resolveForDocument` (collection grant, ancestor grant, direct grant,
workspace grant — in `DEFAULT_ORDER`; the soft-deleted grant is absent). -/
def sampleDocRes : List ResolvedPermission :=
  [toResolvedForDocument "d2" gcoll, toResolvedForDocument "d2" ganc,
    toResolvedForDocument "d2" gdoc, toResolvedForDocument "d2" gws]

theorem resolveForDocument_spec_witness :
    (toResolvedForDocument "d2" gdoc).source = .direct :=
  (((resolveForDocument_spec samplePermDb sampleDocs "t1" "d2" (some "c1") 5
        ["d2", "d1"] sampleDocRes (by decide) (by decide)).2.1
      (toResolvedForDocument "d2" gdoc) (by decide)).mpr (by decide))

/-! ## The effective-permission calculator

Embedding of `getDocumentPermission` and `isElevatedPermission` from the
permissions helper module (the calculator built on the resolver and the
priority ranking). -/

/-- A row of the `users` table restricted to the columns the calculator
reads (`id`, `teamId`, and the live `role`). -/
structure UserRow where
  id : String
  teamId : String
  role : String
  deriving DecidableEq, Repr

/-- A group-membership row, backing `Group.filterByMember(userId)`. -/
structure GroupUserRow where
  groupId : String
  userId : String
  deriving DecidableEq, Repr

/-- The tables consumed by the effective-permission calculator. -/
structure Database where
  permissions : List Permission
  documents : List DocumentRow
  users : List UserRow
  groupUsers : List GroupUserRow
  deriving Repr

/-- The user's live group-id set, as fetched by
`Group.filterByMember(userId).findAll({ attributes: ["id"] })`. -/
def memberGroupIds (db : Database) (userId : String) : List String :=
  (db.groupUsers.filter fun g => decide (g.userId = userId)).map (·.groupId)

/-- The subject-matching filter of `getDocumentPermission`: user grants by
id, role grants against the user's live role, and group grants against the
user's live group-id set (this calculator performs the group-membership
check itself). -/
def matchesCalculatorSubject (userId role : String) (groupIds : List String)
    (p : ResolvedPermission) : Bool :=
  match p.subjectType with
  | .user => decide (p.subjectId = some userId)
  | .role => decide (p.subjectRole = some role)
  | .group => decide (∃ s, p.subjectId = some s ∧ s ∈ groupIds)

/-- The skip filter `permission.id !== skipMembershipId` (always true when
no skip id was supplied). -/
def skipFilter (skipMembershipId : Option String) (p : ResolvedPermission) : Bool :=
  match skipMembershipId with
  | none => true
  | some s => decide (p.id ≠ s)

/-- The `PermissionLevel → DocumentPermission` mapping performed inside
`getDocumentPermission` (Manage to Manage, Edit to Edit, otherwise Read). -/
def toDocumentPermission : PermissionLevel → DocumentPermission
  | .manage => .manage
  | .edit => .edit
  | .read => .read

/-- The two filters of `getDocumentPermission` in source order: drop the
skipped grant id, then keep grants whose subject matches the user. -/
def survivingGrants (resolved : List ResolvedPermission) (skipMembershipId : Option String)
    (userId role : String) (groupIds : List String) : List ResolvedPermission :=
  (resolved.filter (skipFilter skipMembershipId)).filter
    (matchesCalculatorSubject userId role groupIds)

/-- Descending order on `DocumentPermissionPriority`, as produced by
`orderBy(permissions, priority, "desc")`. -/
def DocPermDescRel (a b : DocumentPermission) : Prop :=
  DocumentPermissionPriority b ≤ DocumentPermissionPriority a

instance : DecidableRel DocPermDescRel := fun a b => by
  unfold DocPermDescRel
  infer_instance

instance : IsTotal DocumentPermission DocPermDescRel := ⟨by decide⟩

instance : IsTrans DocumentPermission DocPermDescRel := ⟨by decide⟩

/-- The stable descending sort by priority followed by taking element `[0]`. -/
def rankedPermission (levels : List DocumentPermission) : Option DocumentPermission :=
  (List.insertionSort DocPermDescRel levels).head?

/-- Embedding of `getDocumentPermission`: look up the document and user
(returning undefined when either is missing), fetch the user's group ids,
resolve the document's grant set, filter by skip id and subject match, map
to document-permission levels, and return the highest by priority.  The
outer `Option` is `none` exactly when the ancestry query inside the
resolver does not terminate within `fuel`. -/
def getDocumentPermission (db : Database) (userId documentId : String)
    (skipMembershipId : Option String) (fuel : Nat) :
    Option (Option DocumentPermission) :=
  match db.documents.find? (fun d => decide (d.id = documentId)),
      db.users.find? (fun u => decide (u.id = userId)) with
  | some document, some user =>
    (resolveForDocument db.permissions db.documents user.teamId document.id
        document.collectionId fuel).map fun resolvedPermissions =>
      rankedPermission
        ((survivingGrants resolvedPermissions skipMembershipId userId user.role
            (memberGroupIds db userId)).map fun p => toDocumentPermission p.permission)
  | _, _ => some none

/-- Embedding of `isElevatedPermission`: true when the user has no existing
permission, otherwise compare priorities strictly. -/
def isElevatedPermission (db : Database) (userId documentId : String)
    (permission : DocumentPermission) (skipMembershipId : Option String) (fuel : Nat) :
    Option Bool :=
  (getDocumentPermission db userId documentId skipMembershipId fuel).map
    fun existingPermission =>
      match existingPermission with
      | none => true
      | some e =>
        decide (DocumentPermissionPriority e < DocumentPermissionPriority permission)

theorem rankedPermission_spec (levels : List DocumentPermission) :
    (rankedPermission levels = none ↔ levels = []) ∧
      ∀ l, rankedPermission levels = some l →
        l ∈ levels ∧
          ∀ m ∈ levels,
            DocumentPermissionPriority m ≤ DocumentPermissionPriority l := by
  have hperm := List.perm_insertionSort DocPermDescRel levels
  have hsorted := List.sorted_insertionSort DocPermDescRel levels
  constructor
  · unfold rankedPermission
    rw [List.head?_eq_none_iff]
    constructor
    · intro h
      rw [h] at hperm
      exact hperm.symm.eq_nil
    · intro h
      subst h
      rfl
  · intro l hl
    unfold rankedPermission at hl
    cases hsort : List.insertionSort DocPermDescRel levels with
    | nil =>
      rw [hsort] at hl
      cases hl
    | cons a t =>
      rw [hsort] at hl
      simp only [List.head?_cons, Option.some.injEq] at hl
      subst hl
      rw [hsort] at hperm hsorted
      rw [List.sorted_cons] at hsorted
      constructor
      · exact hperm.mem_iff.mp (List.mem_cons_self _ _)
      · intro m hm
        have hm' : m ∈ a :: t := hperm.mem_iff.mpr hm
        rcases List.mem_cons.mp hm' with h | h
        · cases h
          exact le_refl _
        · exact hsorted.1 m h

/-- The sample user whose id, team, role and group membership drive the
calculator witnesses. -/
def sampleUser : UserRow := { id := "u1", teamId := "t1", role := "editor" }

/-- The full sample database for the calculator witnesses. -/
def sampleDatabase : Database :=
  { permissions := samplePermDb
    documents := sampleDocs
    users := [sampleUser]
    groupUsers := [{ groupId := "grp1", userId := "u1" }] }

/-- C2: `getDocumentPermission` returns the level of maximum rank among the
grants whose subject matches the user (with Read=0 < Edit=1 < Manage=2),
returns no level exactly when no resolved grant matches, and every
surviving grant passed the calculator's own subject check, which includes
the group-membership test against the user's live group set. -/
theorem getDocumentPermission_max (db : Database) (userId documentId : String)
    (skipMembershipId : Option String) (fuel : Nat) (document : DocumentRow)
    (user : UserRow) (resolved : List ResolvedPermission)
    (r : Option DocumentPermission)
    (hdoc : db.documents.find? (fun d => decide (d.id = documentId)) = some document)
    (huser : db.users.find? (fun u => decide (u.id = userId)) = some user)
    (hres : resolveForDocument db.permissions db.documents user.teamId document.id
      document.collectionId fuel = some resolved)
    (hr : getDocumentPermission db userId documentId skipMembershipId fuel = some r) :
    (r = none ↔
      survivingGrants resolved skipMembershipId userId user.role
        (memberGroupIds db userId) = [])
    ∧ (∀ l, r = some l →
        (∃ p ∈ survivingGrants resolved skipMembershipId userId user.role
            (memberGroupIds db userId), toDocumentPermission p.permission = l)
        ∧ ∀ p ∈ survivingGrants resolved skipMembershipId userId user.role
            (memberGroupIds db userId),
            DocumentPermissionPriority (toDocumentPermission p.permission) ≤
              DocumentPermissionPriority l)
    ∧ (∀ p ∈ survivingGrants resolved skipMembershipId userId user.role
        (memberGroupIds db userId),
        matchesCalculatorSubject userId user.role (memberGroupIds db userId) p = true) := by
  unfold getDocumentPermission at hr
  rw [hdoc, huser] at hr
  dsimp only at hr
  rw [hres] at hr
  simp only [Option.map_some', Option.some.injEq] at hr
  subst hr
  have hspec := rankedPermission_spec
    ((survivingGrants resolved skipMembershipId userId user.role
        (memberGroupIds db userId)).map fun p => toDocumentPermission p.permission)
  refine ⟨?_, ?_, ?_⟩
  · rw [hspec.1, List.map_eq_nil_iff]
  · intro l hl
    obtain ⟨hmem, hmax⟩ := hspec.2 l hl
    constructor
    · rw [List.mem_map] at hmem
      obtain ⟨p, hp, hpl⟩ := hmem
      exact ⟨p, hp, hpl⟩
    · intro p hp
      exact hmax _ (List.mem_map_of_mem _ hp)
  · intro p hp
    exact List.of_mem_filter hp

theorem getDocumentPermission_max_witness :
    ∃ p ∈ survivingGrants sampleDocRes none "u1" "editor"
        (memberGroupIds sampleDatabase "u1"),
      toDocumentPermission p.permission = DocumentPermission.manage :=
  ((getDocumentPermission_max sampleDatabase "u1" "d2" none 5 childDoc sampleUser
        sampleDocRes (some .manage) (by decide) (by decide) (by decide)
        (by decide)).2.1 DocumentPermission.manage rfl).1

/-- The elevation comparison treats "no effective permission" as rank −1. -/
def rankOption : Option DocumentPermission → Int
  | none => -1
  | some l => (DocumentPermissionPriority l : Int)

/-- C3: `isElevatedPermission` returns true exactly when the proposed
level's rank strictly exceeds the rank of the current effective
permission, where the absence of any effective permission counts as
rank −1 — so a user with no access is elevated by every proposed level,
including Read. -/
theorem isElevatedPermission_spec (db : Database) (userId documentId : String)
    (permission : DocumentPermission) (skipMembershipId : Option String)
    (fuel : Nat) (b : Bool) (existing : Option DocumentPermission)
    (hex : getDocumentPermission db userId documentId skipMembershipId fuel =
      some existing)
    (hb : isElevatedPermission db userId documentId permission skipMembershipId fuel =
      some b) :
    (b = true ↔ rankOption existing < (DocumentPermissionPriority permission : Int))
    ∧ (existing = none → b = true) := by
  unfold isElevatedPermission at hb
  rw [hex] at hb
  simp only [Option.map_some', Option.some.injEq] at hb
  subst hb
  cases existing with
  | none =>
    refine ⟨?_, fun _ => rfl⟩
    simp only [true_iff]
    show (-1 : Int) < _
    have : (0 : Int) ≤ (DocumentPermissionPriority permission : Int) :=
      Int.natCast_nonneg _
    omega
  | some e =>
    refine ⟨?_, fun h => by cases h⟩
    show decide (DocumentPermissionPriority e < DocumentPermissionPriority permission)
        = true ↔ _
    rw [decide_eq_true_iff]
    show _ ↔ (DocumentPermissionPriority e : Int) < _
    exact (Nat.cast_lt (α := Int)).symm

theorem isElevatedPermission_spec_witness :
    ((false = true) ↔
        rankOption (some DocumentPermission.manage) <
          (DocumentPermissionPriority DocumentPermission.read : Int))
      ∧ (some DocumentPermission.manage = (none : Option DocumentPermission) →
          false = true) :=
  isElevatedPermission_spec sampleDatabase "u1" "d2" .read none 5 false
    (some .manage) (by decide) (by decide)

/-- C4: supplying a skip id excludes exactly the grant with that id from
the resolved set before subject matching and ranking (everything else is
unchanged); in particular, when exactly one grant `g` survives for the
user, skipping `g.id` makes `getDocumentPermission` return no level and
makes `isElevatedPermission` report Read as an elevation. -/
theorem skipMembership_spec (db : Database) (userId documentId : String) (fuel : Nat)
    (document : DocumentRow) (user : UserRow) (resolved : List ResolvedPermission)
    (g : ResolvedPermission)
    (hdoc : db.documents.find? (fun d => decide (d.id = documentId)) = some document)
    (huser : db.users.find? (fun u => decide (u.id = userId)) = some user)
    (hres : resolveForDocument db.permissions db.documents user.teamId document.id
      document.collectionId fuel = some resolved) :
    (∀ sid : String,
      survivingGrants resolved (some sid) userId user.role (memberGroupIds db userId) =
        (survivingGrants resolved none userId user.role (memberGroupIds db userId)).filter
          fun p => decide (p.id ≠ sid))
    ∧ (survivingGrants resolved none userId user.role (memberGroupIds db userId) = [g] →
        getDocumentPermission db userId documentId (some g.id) fuel = some none ∧
          isElevatedPermission db userId documentId .read (some g.id) fuel = some true) := by
  have hskip : ∀ sid : String,
      survivingGrants resolved (some sid) userId user.role (memberGroupIds db userId) =
        (survivingGrants resolved none userId user.role
            (memberGroupIds db userId)).filter fun p => decide (p.id ≠ sid) := by
    intro sid
    unfold survivingGrants
    have h1 : resolved.filter (skipFilter none) = resolved := by
      have h2 : skipFilter none = fun (_ : ResolvedPermission) => true := rfl
      rw [h2]
      exact List.filter_true resolved
    rw [h1, List.filter_filter, List.filter_filter]
    apply List.filter_congr
    intro p _
    rw [Bool.and_comm]
    rfl
  refine ⟨hskip, ?_⟩
  intro hsolo
  have hempty :
      survivingGrants resolved (some g.id) userId user.role (memberGroupIds db userId)
        = [] := by
    rw [hskip g.id, hsolo]
    simp
  have hget : getDocumentPermission db userId documentId (some g.id) fuel = some none := by
    unfold getDocumentPermission
    rw [hdoc, huser]
    dsimp only
    rw [hres]
    simp only [Option.map_some', Option.some.injEq]
    rw [hempty]
    rfl
  refine ⟨hget, ?_⟩
  unfold isElevatedPermission
  rw [hget]
  rfl

/-- A database where a single direct grant provides the user's access. -/
def soloDb : Database :=
  { permissions := [gdoc]
    documents := sampleDocs
    users := [sampleUser]
    groupUsers := [] }

theorem skipMembership_spec_witness :
    getDocumentPermission soloDb "u1" "d2"
        (some (toResolvedForDocument "d2" gdoc).id) 5 = some none ∧
      isElevatedPermission soloDb "u1" "d2" .read
        (some (toResolvedForDocument "d2" gdoc).id) 5 = some true :=
  (skipMembership_spec soloDb "u1" "d2" 5 childDoc sampleUser
      [toResolvedForDocument "d2" gdoc] (toResolvedForDocument "d2" gdoc)
      (by decide) (by decide) (by decide)).2 (by decide)

/-! ## The policy engine's matching helpers -/

/-- The `matchesSubject` helper of the policy files (the same function
appears in server/policies/document.ts and server/policies/collection.ts):
user grants match by id, role grants match against the user's live role,
and group grants are accepted as-is because the eager-load scope
`withPermissionGrants(userId)` has already filtered them to the actor's
group memberships. -/
def matchesSubject (grant : Permission) (user : UserRow) : Bool :=
  match grant.subjectType with
  | .user => decide (grant.subjectId = some user.id)
  | .role => decide (grant.subjectRole = some user.role)
  | .group => true

/-- C7: role-subject grants are matched against the actor's current role
at evaluation time, not the role held at grant time: in both the policy
matching helper and the effective-permission calculator's subject filter
the outcome for a Role grant is exactly "subjectRole equals the live
role", so changing only the user's role flips the match with no grant
mutation. -/
theorem roleGrants_match_live_role (g : Permission) (rp : ResolvedPermission)
    (u : UserRow) (userId r r' : String) (groupIds : List String)
    (hg : g.subjectType = .role) (hrp : rp.subjectType = .role) :
    (matchesSubject g { id := u.id, teamId := u.teamId, role := r } =
      decide (g.subjectRole = some r))
    ∧ (matchesCalculatorSubject userId r groupIds rp =
      decide (rp.subjectRole = some r))
    ∧ (g.subjectRole = some r → r' ≠ r →
        matchesSubject g { id := u.id, teamId := u.teamId, role := r } = true ∧
          matchesSubject g { id := u.id, teamId := u.teamId, role := r' } = false) := by
  refine ⟨?_, ?_, ?_⟩
  · unfold matchesSubject
    rw [hg]
  · unfold matchesCalculatorSubject
    rw [hrp]
  · intro h1 h2
    constructor
    · unfold matchesSubject
      rw [hg]
      show decide (g.subjectRole = some r) = true
      rw [h1]
      simp
    · unfold matchesSubject
      rw [hg]
      show decide (g.subjectRole = some r') = false
      rw [h1]
      simp only [Option.some.injEq, decide_eq_false_iff_not]
      exact fun hh => h2 hh.symm

theorem roleGrants_match_live_role_witness :
    matchesSubject gws { id := "u1", teamId := "t1", role := "editor" } = true ∧
      matchesSubject gws { id := "u1", teamId := "t1", role := "viewer" } = false :=
  (roleGrants_match_live_role gws (toResolvedForDocument "d2" gws)
      { id := "u1", teamId := "t1", role := "editor" } "u1" "editor" "viewer" []
      (by decide) (by decide)).2.2 (by decide) (by decide)

/-- A collection as consumed by the collection policy's matching helper:
its id, its `ownerId` column (added by the grants migration and read via
`getDataValue`), and its eager-loaded `permissionGrants`. -/
structure CollectionRes where
  id : String
  ownerId : Option String
  permissionGrants : List Permission
  deriving DecidableEq, Repr

/-- A document as consumed by the document policy's matching helper: its
id, its creator `createdById` (the ownership notion the document policy
rules use for drafts — the Document model has no `ownerId` column), and
its eager-loaded `permissionGrants`. -/
structure DocumentRes where
  id : String
  createdById : String
  permissionGrants : List Permission
  deriving DecidableEq, Repr

/-- The `PermissionLevel → CollectionPermission` mapping inside the
collection policy's `includesPermission`. -/
def toCollectionPermission : PermissionLevel → CollectionPermission
  | .manage => .manage
  | .edit => .edit
  | .read => .read

/-- Truthiness of the JS owner check `ownerId && ownerId === user.id`
(a null or empty-string `ownerId` is falsy). -/
def ownerCheck (ownerId : Option String) (userId : String) : Bool :=
  match ownerId with
  | none => false
  | some o => decide (o ≠ "" ∧ o = userId)

/-- Embedding of `includesPermission` from server/policies/collection.ts:
the owner short-circuit comes first; otherwise scan the eager-loaded
grants, keeping those whose subject matches and whose mapped level is
among the requested levels.  `none` models the `false` return. -/
def collection_includesPermission (collection : Option CollectionRes) (user : UserRow)
    (permissions : List CollectionPermission) : Option (List String) :=
  match collection with
  | none => none
  | some c =>
    if ownerCheck c.ownerId user.id then some ["owner:" ++ c.id]
    else
      let grantIds :=
        ((c.permissionGrants.filter fun g => matchesSubject g user).filter
            fun g => decide (toCollectionPermission g.permission ∈ permissions)).map
          (·.id)
      if grantIds.isEmpty then none else some grantIds

/-- Embedding of `includesPermission` from server/policies/document.ts:
it scans the eager-loaded grants exactly like the collection version but
performs no ownership check of any kind. -/
def document_includesPermission (document : Option DocumentRes) (user : UserRow)
    (permissions : List DocumentPermission) : Option (List String) :=
  match document with
  | none => none
  | some d =>
    let grantIds :=
      ((d.permissionGrants.filter fun g => matchesSubject g user).filter
          fun g => decide (toDocumentPermission g.permission ∈ permissions)).map
        (·.id)
    if grantIds.isEmpty then none else some grantIds

/-- C8 counterexample: the claim asserts that `includesPermission` returns
a synthetic owner marker for every resource kind (collection or document)
whenever the resource's owner equals the actor.  For the document policy
this is false at a concrete input: a document created by (and so owned
by) "u1" with no grants yields `none` (denied) for "u1" at every
requested level — the document helper has no owner path at all (the
Document model does not even carry an `ownerId` column). -/
theorem includesPermission_owner_counterexample :
    document_includesPermission
        (some { id := "d1", createdById := "u1", permissionGrants := [] })
        { id := "u1", teamId := "t1", role := "editor" }
        [.read, .edit, .manage] = none := rfl

/-- C8 amended: only the collection policy's `includesPermission` performs
the owner short-circuit — when the collection's `ownerId` is set (non-empty)
and equals the actor's id it returns the synthetic marker regardless of the
attached grants and of the requested levels; the document policy's
`includesPermission` performs no ownership check and denies whenever the
grant scan produces nothing. -/
theorem includesPermission_owner_amended (c : CollectionRes) (u : UserRow) (o : String)
    (ps : List CollectionPermission)
    (ho : c.ownerId = some o) (hne : o ≠ "") (heq : o = u.id) :
    collection_includesPermission (some c) u ps = some ["owner:" ++ c.id]
    ∧ ∀ (d : DocumentRes) (ps' : List DocumentPermission) (u' : UserRow),
        d.permissionGrants = [] →
          document_includesPermission (some d) u' ps' = none := by
  constructor
  · unfold collection_includesPermission
    dsimp only
    have hown : ownerCheck c.ownerId u.id = true := by
      rw [ho]
      unfold ownerCheck
      rw [decide_eq_true_iff]
      exact ⟨hne, heq⟩
    rw [hown]
    rfl
  · intro d ps' u' hgr
    unfold document_includesPermission
    dsimp only
    rw [hgr]
    rfl

theorem includesPermission_owner_amended_witness :
    collection_includesPermission
        (some { id := "c1", ownerId := some "u1", permissionGrants := [gcoll] })
        { id := "u1", teamId := "t1", role := "editor" } [] =
      some ["owner:" ++ "c1"] :=
  (includesPermission_owner_amended
      { id := "c1", ownerId := some "u1", permissionGrants := [gcoll] }
      { id := "u1", teamId := "t1", role := "editor" } "u1" [] rfl (by decide)
      rfl).1

/-! ## Grant-creating route handlers and the active-uniqueness invariant -/

/-- The `documentPermissionToLevel` mapping of documents.ts. -/
def documentPermissionToLevel : DocumentPermission → PermissionLevel
  | .manage => .manage
  | .edit => .edit
  | .read => .read

/-- Errors surfaced by the embedded route handlers. -/
inductive ApiError
  | validationError (message : String)
  | notFound
  | authorizationError
  deriving DecidableEq, Repr

/-- Outcomes of the collaborator steps of the add-member routes: the two
ORM lookups with `rejectOnEmpty` and the two `authorize` calls.  The
grant-store mutation itself is modelled exactly. -/
structure AddMemberCtx where
  documentFound : Bool
  targetFound : Bool
  canManageUsers : Bool
  canReadTarget : Bool
  deriving DecidableEq, Repr

/-- Paranoid `Permission.destroy({ where, force: false })`: set `deletedAt`
on every active row matching the where-clause; soft-deleted rows are
untouched. -/
def softDestroyWhere (s : List Permission) (w : Permission → Bool) (now : Nat) :
    List Permission :=
  s.map fun p =>
    if w p ∧ p.deletedAt = none then { p with deletedAt := some now } else p

/-- The destroy where-clause of documents.add_user. -/
def addUserDestroyWhere (teamId userId docId : String) (p : Permission) : Bool :=
  decide (p.teamId = teamId ∧ p.subjectType = .user ∧ p.subjectId = some userId ∧
    p.resourceType = .document ∧ p.resourceId = some docId)

/-- The destroy where-clause of documents.add_group. -/
def addGroupDestroyWhere (teamId groupId docId : String) (p : Permission) : Bool :=
  decide (p.teamId = teamId ∧ p.subjectType = .group ∧ p.subjectId = some groupId ∧
    p.resourceType = .document ∧ p.resourceId = some docId)

/-- Embedding of the documents.add_user route handler: reject self-invite,
fail on missing document/target, authorize, then soft-delete every active
conflicting user grant on the document and insert the new grant — all in
one transaction (one atomic step here). -/
def documents_add_user (s : List Permission) (ctx : AddMemberCtx)
    (teamId actorId userId docId : String) (permission : Option DocumentPermission)
    (defaultDocumentPermission : DocumentPermission) (newId : String) (now : Nat) :
    Except ApiError (List Permission) :=
  if userId = actorId then
    .error (.validationError "You cannot invite yourself")
  else if !ctx.documentFound || !ctx.targetFound then
    .error .notFound
  else if !ctx.canManageUsers || !ctx.canReadTarget then
    .error .authorizationError
  else
    let resolvedPermission := permission.getD defaultDocumentPermission
    .ok (softDestroyWhere s (addUserDestroyWhere teamId userId docId) now ++
      [{ id := newId, teamId := teamId, subjectType := .user,
         subjectId := some userId, subjectRole := none,
         resourceType := .document, resourceId := some docId,
         permission := documentPermissionToLevel resolvedPermission,
         inheritMode := .self, grantedById := actorId, createdAt := now,
         deletedAt := none }])

/-- Embedding of the documents.add_group route handler (no self-invite
check exists on this route): soft-delete every active conflicting group
grant on the document, then insert the new grant. -/
def documents_add_group (s : List Permission) (ctx : AddMemberCtx)
    (teamId actorId groupId docId : String) (permission : Option DocumentPermission)
    (defaultDocumentPermission : DocumentPermission) (newId : String) (now : Nat) :
    Except ApiError (List Permission) :=
  if !ctx.documentFound || !ctx.targetFound then
    .error .notFound
  else if !ctx.canManageUsers || !ctx.canReadTarget then
    .error .authorizationError
  else
    let resolvedPermission := permission.getD defaultDocumentPermission
    .ok (softDestroyWhere s (addGroupDestroyWhere teamId groupId docId) now ++
      [{ id := newId, teamId := teamId, subjectType := .group,
         subjectId := some groupId, subjectRole := none,
         resourceType := .document, resourceId := some docId,
         permission := documentPermissionToLevel resolvedPermission,
         inheritMode := .self, grantedById := actorId, createdAt := now,
         deletedAt := none }])

/-- Transaction semantics of a thrown error: the store rolls back to its
prior state; a successful commit yields the new state. -/
def resultingPermissions (s : List Permission)
    (r : Except ApiError (List Permission)) : List Permission :=
  match r with
  | .ok s1 => s1
  | .error _ => s

/-- The column tuple of the partial unique index
`permissions_unique_active_idx` (team, subject type/id/role, resource
type/id, inherit mode). -/
def grantKey (p : Permission) :
    String × PermissionSubjectType × Option String × Option String ×
      PermissionResourceType × Option String × PermissionInheritMode :=
  (p.teamId, p.subjectType, p.subjectId, p.subjectRole, p.resourceType,
    p.resourceId, p.inheritMode)

/-- At most one active (non-soft-deleted) grant per distinct key tuple. -/
def ActiveUniqueInvariant (s : List Permission) : Prop :=
  ((s.filter fun p => decide (p.deletedAt = none)).map grantKey).Nodup

instance : DecidableEq
    (PermissionResourceType × Option String × PermissionInheritMode) :=
  inferInstance

instance : DecidableEq
    (Option String × PermissionResourceType × Option String ×
      PermissionInheritMode) :=
  inferInstance

instance : DecidableEq
    (Option String × Option String × PermissionResourceType × Option String ×
      PermissionInheritMode) :=
  inferInstance

instance : DecidableEq
    (PermissionSubjectType × Option String × Option String ×
      PermissionResourceType × Option String × PermissionInheritMode) :=
  inferInstance

instance : DecidableEq
    (String × PermissionSubjectType × Option String × Option String ×
      PermissionResourceType × Option String × PermissionInheritMode) :=
  inferInstance

instance (s : List Permission) : Decidable (ActiveUniqueInvariant s) := by
  unfold ActiveUniqueInvariant
  exact List.nodupDecidable _

theorem softDestroy_insert_preserves (s : List Permission) (w : Permission → Bool)
    (now : Nat) (newRow : Permission)
    (hinv : ActiveUniqueInvariant s)
    (hnew : newRow.deletedAt = none)
    (hkey : ∀ p : Permission, grantKey p = grantKey newRow → w p = true) :
    ActiveUniqueInvariant (softDestroyWhere s w now ++ [newRow]) := by
  unfold ActiveUniqueInvariant at hinv ⊢
  unfold softDestroyWhere
  rw [List.filter_append, List.filter_map]
  have hfry : [newRow].filter (fun p => decide (p.deletedAt = none)) = [newRow] := by
    simp [hnew]
  rw [hfry]
  have hfilter :
      s.filter ((fun p => decide (p.deletedAt = none)) ∘ fun p =>
          if w p ∧ p.deletedAt = none then { p with deletedAt := some now } else p) =
        s.filter fun p => decide (p.deletedAt = none) && !w p := by
    apply List.filter_congr
    intro p _
    by_cases hw : w p
    · by_cases hact : p.deletedAt = none
      · simp [Function.comp, hw, hact]
      · simp [Function.comp, hw, hact]
    · by_cases hact : p.deletedAt = none
      · simp [Function.comp, hw, hact]
      · simp [Function.comp, hw, hact]
  rw [hfilter]
  have hid :
      (s.filter fun p => decide (p.deletedAt = none) && !w p).map (fun p =>
          if w p ∧ p.deletedAt = none then { p with deletedAt := some now } else p) =
        (s.filter fun p => decide (p.deletedAt = none) && !w p).map id := by
    apply List.map_congr_left
    intro p hp
    rw [List.mem_filter, Bool.and_eq_true] at hp
    have hw : ¬(w p ∧ p.deletedAt = none) := by
      intro hc
      rw [hc.1] at hp
      simp at hp
    simp [hw]
  rw [hid, List.map_id]
  rw [List.map_append, List.nodup_append]
  have hsub :
      ((s.filter fun p => decide (p.deletedAt = none) && !w p).map grantKey).Sublist
        ((s.filter fun p => decide (p.deletedAt = none)).map grantKey) := by
    apply List.Sublist.map
    have hcomm :
        s.filter (fun p => decide (p.deletedAt = none) && !w p) =
          s.filter (fun p => !w p && decide (p.deletedAt = none)) :=
      List.filter_congr fun p _ => Bool.and_comm _ _
    rw [hcomm, ← List.filter_filter]
    exact List.filter_sublist _
  refine ⟨hsub.nodup hinv, List.nodup_singleton _, ?_⟩
  intro k hk hknew
  rw [List.map_cons, List.map_nil, List.mem_singleton] at hknew
  subst hknew
  rw [List.mem_map] at hk
  obtain ⟨p, hp, hpk⟩ := hk
  rw [List.mem_filter, Bool.and_eq_true] at hp
  have := hkey p hpk
  rw [this] at hp
  simp at hp

/-- C9: both grant-creating routes preserve the at-most-one-active-grant
invariant enforced by `permissions_unique_active_idx`: each soft-deletes
every conflicting prior active grant and inserts the new row in the same
atomic step, so the active key tuples stay pairwise distinct. -/
theorem add_member_preserves_unique_active (s : List Permission) (ctx : AddMemberCtx)
    (teamId actorId userId groupId docId : String)
    (permU permG : Option DocumentPermission) (defU defG : DocumentPermission)
    (idU idG : String) (now : Nat) (s1 s2 : List Permission)
    (hinv : ActiveUniqueInvariant s) :
    (documents_add_user s ctx teamId actorId userId docId permU defU idU now =
        .ok s1 →
      ActiveUniqueInvariant s1 ∧
        ∀ p ∈ s, addUserDestroyWhere teamId userId docId p = true →
          p.deletedAt = none → { p with deletedAt := some now } ∈ s1)
    ∧ (documents_add_group s ctx teamId actorId groupId docId permG defG idG now =
        .ok s2 →
      ActiveUniqueInvariant s2 ∧
        ∀ p ∈ s, addGroupDestroyWhere teamId groupId docId p = true →
          p.deletedAt = none → { p with deletedAt := some now } ∈ s2) := by
  constructor
  · intro h
    unfold documents_add_user at h
    split_ifs at h
    simp only [Except.ok.injEq] at h
    subst h
    constructor
    · apply softDestroy_insert_preserves s _ now _ hinv rfl
      intro p hpk
      unfold grantKey at hpk
      simp only [Prod.mk.injEq] at hpk
      unfold addUserDestroyWhere
      rw [decide_eq_true_iff]
      exact ⟨hpk.1, hpk.2.1, hpk.2.2.1, hpk.2.2.2.2.1, hpk.2.2.2.2.2.1⟩
    · intro p hp hw hact
      apply List.mem_append_left
      unfold softDestroyWhere
      have hcond :
          (if addUserDestroyWhere teamId userId docId p ∧ p.deletedAt = none then
              { p with deletedAt := some now } else p) =
            { p with deletedAt := some now } :=
        if_pos ⟨hw, hact⟩
      rw [← hcond]
      exact List.mem_map_of_mem _ hp
  · intro h
    unfold documents_add_group at h
    split_ifs at h
    simp only [Except.ok.injEq] at h
    subst h
    constructor
    · apply softDestroy_insert_preserves s _ now _ hinv rfl
      intro p hpk
      unfold grantKey at hpk
      simp only [Prod.mk.injEq] at hpk
      unfold addGroupDestroyWhere
      rw [decide_eq_true_iff]
      exact ⟨hpk.1, hpk.2.1, hpk.2.2.1, hpk.2.2.2.2.1, hpk.2.2.2.2.2.1⟩
    · intro p hp hw hact
      apply List.mem_append_left
      unfold softDestroyWhere
      have hcond :
          (if addGroupDestroyWhere teamId groupId docId p ∧ p.deletedAt = none then
              { p with deletedAt := some now } else p) =
            { p with deletedAt := some now } :=
        if_pos ⟨hw, hact⟩
      rw [← hcond]
      exact List.mem_map_of_mem _ hp

/-- A context in which every collaborator step succeeds. -/
def okCtx : AddMemberCtx :=
  { documentFound := true, targetFound := true, canManageUsers := true,
    canReadTarget := true }

/-- The store produced by running documents.add_user over `[gdoc]`: the
conflicting prior grant is soft-deleted and the new grant inserted. -/
def sampleAddUserResult : List Permission :=
  [{ gdoc with deletedAt := some 7 },
    { id := "g9", teamId := "t1", subjectType := .user, subjectId := some "u1",
      subjectRole := none, resourceType := .document, resourceId := some "d2",
      permission := .edit, inheritMode := .self, grantedById := "u0",
      createdAt := 7, deletedAt := none }]

theorem add_member_preserves_unique_active_witness :
    ActiveUniqueInvariant sampleAddUserResult :=
  ((add_member_preserves_unique_active [gdoc] okCtx "t1" "u0" "u1" "grp1" "d2"
      (some .edit) (some .edit) .read .read "g9" "g9" 7 sampleAddUserResult
      [] (by decide)).1 rfl).1

/-- C10: documents.add_user rejects a request whose target user is the
acting user with the "You cannot invite yourself" ValidationError before
any lookup, authorization, soft-delete or insert happens — for every
collaborator outcome the handler errors and the grant store is unchanged. -/
theorem add_user_self_invite_rejected (s : List Permission) (ctx : AddMemberCtx)
    (teamId actorId docId : String) (permission : Option DocumentPermission)
    (defaultDocumentPermission : DocumentPermission) (newId : String) (now : Nat) :
    documents_add_user s ctx teamId actorId actorId docId permission
        defaultDocumentPermission newId now =
      .error (.validationError "You cannot invite yourself")
    ∧ resultingPermissions s
        (documents_add_user s ctx teamId actorId actorId docId permission
          defaultDocumentPermission newId now) = s := by
  have h : documents_add_user s ctx teamId actorId actorId docId permission
      defaultDocumentPermission newId now =
      .error (.validationError "You cannot invite yourself") := by
    unfold documents_add_user
    rw [if_pos rfl]
  refine ⟨h, ?_⟩
  rw [h]
  rfl

end Outline

